import Mathlib

/-!
Verification of the Orchids CLI agent (cli/src/agent/tools.ts, type.ts and the
DatabaseAgent/spawnAgent loop) against its specification.

Embedding conventions:
* A path string is analyzed through its '/'-separated segments (`segsOf`).
  Absolute paths start with '/'.  The OS-level identity of a path is its
  normalized absolute segment list (`absSegs`): this models the kernel's
  handling of '.', '..' and empty segments exactly as Node's `path.resolve`.
* The filesystem is a finite map from normalized absolute segment lists to
  file contents plus a set of directories (`FS`).
* External effects that the source delegates to other processes (the
  `npx next lint` run, arbitrary shell commands) are oracles in `Exec`.
* The model-invocation boundary (`generateObject`) is an oracle indexed by
  the attempt number; a missing GOOGLE_GENERATIVE_AI_API_KEY makes the call
  fail before the oracle is consulted, exactly as `getGeminiModel` throws
  inside the `try` block of `runNextStep`.
* Console narration, `setTimeout` sleeps and tool invocations are recorded
  in the `World` so that theorems can speak about retry backoff, pacing,
  user-visible messages and which Executor primitives actually ran.
-/

namespace Orchids

/-- Split a character list at '/' (the accumulator holds the current segment
reversed). Behaves exactly like String.splitOn "/". -/
def splitSegsAux (cur : List Char) : List Char → List (List Char)
  | [] => [cur.reverse]
  | c :: cs =>
    if c == '/' then cur.reverse :: splitSegsAux [] cs
    else splitSegsAux (c :: cur) cs

/-- The '/'-separated segments of a path string. -/
def segsOf (p : String) : List String :=
  (splitSegsAux [] p.toList).map (fun l => String.mk l)

/-- path.isAbsolute for POSIX paths. -/
def isAbsolute (p : String) : Bool :=
  match p.toList with
  | '/' :: _ => true
  | _ => false

/-- Core of POSIX path normalization as performed by Node's `path.resolve` on
an absolute segment list: empty and '.' segments are dropped, '..' pops the
last accumulated segment (and is dropped at the root). `acc` holds the
already-processed segments in reverse order. -/
def normAux (acc : List String) : List String → List String
  | [] => acc.reverse
  | seg :: rest =>
    if seg = "" ∨ seg = "." then normAux acc rest
    else if seg = ".." then
      match acc with
      | [] => normAux [] rest
      | _ :: acc' => normAux acc' rest
    else normAux (seg :: acc) rest

/-- Join segments with '/' separators. -/
def joinSegs : List String → String
  | [] => ""
  | [s] => s
  | s :: rest => s ++ "/" ++ joinSegs rest

/-- Render a normalized absolute segment list as a path string. -/
def joinAbs (segs : List String) : String := "/" ++ joinSegs segs

/-- tools.ts `resolvePath`: absolute paths are returned unchanged, relative
paths are resolved against the given root (the module-level PROJECT_ROOT). -/
def resolvePath (root p : String) : String :=
  if isAbsolute p then p else joinAbs (normAux [] (segsOf root ++ segsOf p))

/-- Node `path.basename` (ignoring empty segments such as trailing slashes). -/
def basename (p : String) : String :=
  (((segsOf p).filter (fun s => !(s == ""))).getLast?).getD ""

/-- tools.ts PROJECT_ROOT:
`path.resolve(cwd, path.basename(cwd) === 'cli' ? '../' : '.')`. -/
def PROJECT_ROOT (cwd : String) : String :=
  resolvePath cwd (if basename cwd == "cli" then "../" else ".")

/-- The normalized absolute segment list denoted by path `p` when the OS
interprets it against the absolute base directory `base` (the process cwd for
raw paths, PROJECT_ROOT for paths that went through `resolvePath`). -/
def absSegs (base p : String) : List String :=
  if isAbsolute p then normAux [] (segsOf p)
  else normAux [] (segsOf base ++ segsOf p)

/-- The project root as a normalized absolute segment list. -/
def rootSegsOf (cwd : String) : List String := normAux [] (segsOf (PROJECT_ROOT cwd))

/-- Boolean segment-list prefix test. -/
def hasPrefixSegs : List String → List String → Bool
  | [], _ => true
  | _ :: _, [] => false
  | a :: as, b :: bs => a == b && hasPrefixSegs as bs

/-- `q` is a descendant of (or equal to) `root`, both given as normalized
absolute segment lists. -/
def isDescendant (root q : List String) : Bool := hasPrefixSegs root q

/-! ### Glob matching (the subset used by scanProject's patterns) -/

/-- All suffixes of a list, longest first (the list itself down to []). -/
def suffixesOf {α : Type} : List α → List (List α)
  | [] => [[]]
  | a :: as => (a :: as) :: suffixesOf as

/-- Within-segment glob matching: '*' matches any (possibly empty) run of
characters, every other character matches itself. -/
def segMatch : List Char → List Char → Bool
  | [], s => s.isEmpty
  | '*' :: ps, s => (suffixesOf s).any (fun t => segMatch ps t)
  | _ :: _, [] => false
  | pc :: ps, c :: cs => pc == c && segMatch ps cs

/-- Path-level glob matching over segment lists: a '**' pattern segment
matches zero or more path segments, any other pattern segment must match one
path segment via `segMatch`. -/
def globMatch : List String → List String → Bool
  | [], s => s.isEmpty
  | p :: ps, s =>
    if p == "**" then (suffixesOf s).any (fun t => globMatch ps t)
    else
      match s with
      | [] => false
      | seg :: rest => segMatch p.toList seg.toList && globMatch ps rest

/-- The ignore list of tools.ts `scanProject`. -/
def ignoreGlobs : List String :=
  ["**/*node_modules/**/*", "**/*cli/**/*", "**/*.next/**/*", "**/*.git/**/*",
   "**/*components/ui/**/*", "**/*components/blocks/**/*"]

/-- A relative path (as segments) is excluded by the scanProject ignore list. -/
def ignoredPath (segs : List String) : Bool :=
  ignoreGlobs.any (fun pat => globMatch (segsOf pat) segs)

/-! ### Decision protocol (type.ts) -/

/-- type.ts FileOperationEnum. -/
inductive FileOp
  | READ_FILE
  | WRITE_FILE
  | DELETE_FILE
  | READ_DIRECTORY
  | CREATE_DIRECTORY
  | EXECUTE_COMMAND
  | SCAN_PROJECT
deriving DecidableEq

/-- type.ts AIResponse, after zod parsing (so `path` is always present). -/
structure AIResponse where
  success : Bool
  operation : Option FileOp
  path : String
  fileContent : Option String
  command : Option String
  explanation : String
deriving DecidableEq

/-- A model output before zod parsing: `path` may be absent. -/
structure RawAIResponse where
  success : Bool
  operation : Option FileOp
  path : Option String
  fileContent : Option String
  command : Option String
  explanation : String
deriving DecidableEq

/-- zod parsing through AIResponseSchema: `z.string().default('.')` fills an
absent `path` with "."; an explicitly supplied string (even "") is kept. -/
def parseResponse (r : RawAIResponse) : AIResponse :=
  { success := r.success, operation := r.operation, path := r.path.getD ".",
    fileContent := r.fileContent, command := r.command, explanation := r.explanation }

/-- type.ts OperationResult. -/
structure OperationResult where
  success : Bool
  path : Option String := none
  error : Option String := none
  fileContent : Option String := none
  directoryList : Option (List (String × String)) := none
  commandOutput : Option String := none
deriving DecidableEq

/-- One conversation message; content is either free text (the initial user
prompt), a serialized Decision, or a serialized Result. -/
inductive MsgContent
  | text (s : String)
  | decision (d : AIResponse)
  | result (r : OperationResult)
deriving DecidableEq

structure Message where
  role : String
  content : MsgContent
deriving DecidableEq

/-! ### Filesystem and world state -/

/-- Filesystem: files (normalized absolute segment list, content) and the set
of existing directories. -/
structure FS where
  files : List (List String × String)
  dirs : List (List String)
deriving DecidableEq

def FS.hasFile (fs : FS) (segs : List String) : Bool :=
  fs.files.any (fun f => f.1 == segs)

def FS.hasDir (fs : FS) (segs : List String) : Bool :=
  fs.dirs.any (fun d => d == segs)

def FS.fileContentAt (fs : FS) (segs : List String) : Option String :=
  (fs.files.find? (fun f => f.1 == segs)).map (fun f => f.2)

/-- fs.access succeeds on any existing entry, file or directory. -/
def FS.existsAt (fs : FS) (segs : List String) : Bool :=
  fs.hasFile segs || fs.hasDir segs

def FS.setFile (fs : FS) (segs : List String) (content : String) : FS :=
  { files := fs.files.filter (fun f => !(f.1 == segs)) ++ [(segs, content)],
    dirs := fs.dirs }

def FS.addDir (fs : FS) (segs : List String) : FS :=
  if fs.hasDir segs then fs else { files := fs.files, dirs := fs.dirs ++ [segs] }

def FS.removeFile (fs : FS) (segs : List String) : FS :=
  { files := fs.files.filter (fun f => !(f.1 == segs)), dirs := fs.dirs }

/-- A well-formed path segment contains no '/' character (as on a real
filesystem, where '/' is the separator and cannot occur inside a name). -/
def cleanSeg (s : String) : Bool := !(s.toList.contains '/')

def cleanSegs (segs : List String) : Bool := segs.all cleanSeg

/-- Well-formedness of the filesystem model: every stored path is a list of
'/'-free segments. Any tree reachable through the OS satisfies this. -/
def FS.wellFormed (fs : FS) : Bool :=
  fs.dirs.all cleanSegs && fs.files.all (fun f => cleanSegs f.1)

/-- Oracles for effects the source delegates to external processes: the
`npx next lint --fix` outcome per written file, and shell command execution
returning (stdout, stderr) or an error (message, partial stdout). -/
structure Exec where
  lintResult : String → Option String
  runResult : String → List String → Except (String × String) (String × String)

/-- The observable state threaded through the agent: process cwd, filesystem,
conversation, step counter, recorded setTimeout sleeps (ms), the log of which
Executor primitives ran, and console narration relevant to control flow. -/
structure World where
  cwd : String
  fs : FS
  messages : List Message
  stepCount : Nat
  sleeps : List Nat
  toolLog : List String
  console : List String
deriving DecidableEq

def World.pushMsg (w : World) (m : Message) : World :=
  { w with messages := w.messages ++ [m] }

def World.addSleep (w : World) (n : Nat) : World :=
  { w with sleeps := w.sleeps ++ [n] }

def World.addConsole (w : World) (s : String) : World :=
  { w with console := w.console ++ [s] }

def World.logTool (w : World) (s : String) : World :=
  { w with toolLog := w.toolLog ++ [s] }

/-! ### Operation Executor (tools.ts) -/

/-- Node `path.extname`: the suffix of the basename from its last '.', or ""
when there is no dot or the only dot is the leading character. -/
def extname (p : String) : String :=
  let base := basename p
  let rev := base.toList.reverse
  let after := rev.takeWhile (fun c => !(c == '.'))
  if after.length == base.toList.length then ""
  else if after.length + 1 == base.toList.length then ""
  else String.mk ('.' :: after.reverse)

def lintableExtensions : List String := [".js", ".jsx", ".ts", ".tsx"]

/-- String lowercasing, character by character. -/
def lowerStr (s : String) : String := String.mk (s.toList.map Char.toLower)

/-- tools.ts shouldLintFile. -/
def shouldLintFile (filePath : String) : Bool :=
  lintableExtensions.contains (lowerStr (extname filePath))

/-- tools.ts lintFile: non-lintable extensions are never linted; otherwise the
external `npx next lint --fix` run decides (oracle), returning a diagnostic on
failure. -/
def lintFile (ex : Exec) (filePath : String) : Option String :=
  if shouldLintFile filePath then ex.lintResult filePath else none

/-- tools.ts readFile. Faithful to the source: the existence check is
`fs.access(filePath)` on the RAW path, which the OS interprets against the
process cwd, while the actual read uses `resolvePath`, i.e. PROJECT_ROOT. -/
def readFile (w : World) (filePath : String) : World × OperationResult :=
  let w := w.logTool "readFile"
  if !(w.fs.existsAt (absSegs w.cwd filePath)) then
    (w, { success := false, path := some filePath, error := some "File not found" })
  else
    match w.fs.fileContentAt (absSegs (PROJECT_ROOT w.cwd) filePath) with
    | some content =>
      (w, { success := true, path := some filePath, fileContent := some content })
    | none =>
      if w.fs.hasDir (absSegs (PROJECT_ROOT w.cwd) filePath) then
        (w, { success := false, path := some filePath,
              error := some "EISDIR: illegal operation on a directory, read" })
      else
        (w, { success := false, path := some filePath,
              error := some "ENOENT: no such file or directory" })

/-- Node `fs.mkdir` with recursive:true, creating each prefix in turn; a
regular file occupying any prefix makes the call reject with EEXIST. -/
def mkdirAux (fs : FS) (done : List String) : List String → Except String FS
  | [] => Except.ok fs
  | s :: rest =>
    let cur := done ++ [s]
    if fs.hasFile cur then Except.error "EEXIST: file already exists, mkdir"
    else mkdirAux (fs.addDir cur) cur rest

def mkdirRecursive (fs : FS) (segs : List String) : Except String FS :=
  mkdirAux fs [] segs

/-- tools.ts writeFile: create parent directories, write (full overwrite),
then lint; a lint failure makes the result a failure even though the file was
written. Any mkdir/write rejection is caught into a failure result. -/
def writeFile (ex : Exec) (w : World) (filePath : String) (content : String) :
    World × OperationResult :=
  let w := w.logTool "writeFile"
  let abs := absSegs (PROJECT_ROOT w.cwd) filePath
  match mkdirRecursive w.fs abs.dropLast with
  | Except.error e => (w, { success := false, path := some filePath, error := some e })
  | Except.ok fs1 =>
    if fs1.hasDir abs then
      (w, { success := false, path := some filePath,
            error := some "EISDIR: illegal operation on a directory, write" })
    else
      let w := { w with fs := fs1.setFile abs content }
      match lintFile ex filePath with
      | some e => (w, { success := false, path := some filePath, error := some e })
      | none => (w, { success := true, path := some filePath })

/-- tools.ts deleteFile: same raw-path access check as readFile, then unlink
of the resolved path (a rejection is caught into a failure result). -/
def deleteFile (w : World) (filePath : String) : World × OperationResult :=
  let w := w.logTool "deleteFile"
  if !(w.fs.existsAt (absSegs w.cwd filePath)) then
    (w, { success := false, path := some filePath, error := some "File not found" })
  else
    let abs := absSegs (PROJECT_ROOT w.cwd) filePath
    if w.fs.hasFile abs then
      ({ w with fs := w.fs.removeFile abs }, { success := true, path := some filePath })
    else
      (w, { success := false, path := some filePath,
            error := some "ENOENT: no such file or directory, unlink" })

/-- path.join for the entries of readDirectory. -/
def joinPath (a b : String) : String :=
  if a == "" || a == "." then b else a ++ "/" ++ b

/-- Immediate children of a directory, tagged file/directory. -/
def childEntries (fs : FS) (segs : List String) (dirPath : String) :
    List (String × String) :=
  (fs.dirs.filterMap fun d =>
    if d.length == segs.length + 1 && hasPrefixSegs segs d then
      some (joinPath dirPath ((d.drop segs.length).headD ""), "directory")
    else none)
  ++ (fs.files.filterMap fun f =>
    if f.1.length == segs.length + 1 && hasPrefixSegs segs f.1 then
      some (joinPath dirPath ((f.1.drop segs.length).headD ""), "file")
    else none)

/-- tools.ts readDirectory: raw-path access check, then list the resolved
directory ('' falls back to '.' at the resolve step only). -/
def readDirectory (w : World) (dirPath : String) : World × OperationResult :=
  let w := w.logTool "readDirectory"
  if !(w.fs.existsAt (absSegs w.cwd dirPath)) then
    (w, { success := false, path := some dirPath, error := some "Directory not found" })
  else
    let p := if dirPath == "" then "." else dirPath
    let abs := absSegs (PROJECT_ROOT w.cwd) p
    if w.fs.hasDir abs then
      (w, { success := true, path := some dirPath,
            directoryList := some (childEntries w.fs abs dirPath) })
    else
      (w, { success := false, path := some dirPath,
            error := some "ENOTDIR: not a directory" })

/-- tools.ts createDirectory: recursive mkdir of the resolved path; a
rejection (e.g. a regular file occupying the path) is caught into a failure
result. -/
def createDirectory (w : World) (dirPath : String) : World × OperationResult :=
  let w := w.logTool "createDirectory"
  match mkdirRecursive w.fs (absSegs (PROJECT_ROOT w.cwd) dirPath) with
  | Except.ok fs1 => ({ w with fs := fs1 }, { success := true, path := some dirPath })
  | Except.error e =>
    (w, { success := false, path := some dirPath, error := some e })

/-- tools.ts runCommand: the shell execution itself is external (oracle); on
success stdout and labeled stderr are concatenated, on failure the error
message and partial stdout are reported. Effects of the command on the
filesystem are outside this model. -/
def runCommand (ex : Exec) (w : World) (command : String) (cwdArg : Option String) :
    World × OperationResult :=
  let w := w.logTool "runCommand"
  let workingDir := match cwdArg with
    | some c => absSegs (PROJECT_ROOT w.cwd) c
    | none => rootSegsOf w.cwd
  match ex.runResult command workingDir with
  | Except.ok (out, errS) =>
    let output := out ++ (if errS == "" then "" else "\nWarnings:\n" ++ errS)
    (w, { success := true, path := cwdArg, commandOutput := some output })
  | Except.error (msg, partOut) =>
    (w, { success := false, path := cwdArg, error := some msg,
          commandOutput := some partOut })

/-- The entries of the project tree relative to the root (what `glob` with
cwd = PROJECT_ROOT and dot:true walks over), as (segments, isDirectory). -/
def relEntries (fs : FS) (root : List String) : List (List String × Bool) :=
  (fs.dirs.filterMap fun d =>
    if hasPrefixSegs root d && decide (root.length < d.length) then
      some (d.drop root.length, true)
    else none)
  ++ (fs.files.filterMap fun f =>
    if hasPrefixSegs root f.1 && decide (root.length < f.1.length) then
      some (f.1.drop root.length, false)
    else none)

/-- The matches kept by scanProject: entries matching the supplied pattern
and not excluded by the ignore list. -/
def scanMatches (fs : FS) (root : List String) (pattern : String) :
    List (List String × Bool) :=
  (relEntries fs root).filter fun e =>
    globMatch (segsOf pattern) e.1 && !(ignoredPath e.1)

/-- tools.ts scanProject. -/
def scanProject (w : World) (pattern : String) : World × OperationResult :=
  let w := w.logTool "scanProject"
  let fileList := (scanMatches w.fs (rootSegsOf w.cwd) pattern).map fun e =>
    (joinSegs e.1, if e.2 then "directory" else "file")
  (w, { success := true, path := some pattern, directoryList := some fileList })

/-! ### Step Engine (agent/index.ts: DatabaseAgent, spawnAgent) -/

def keyMissingMsg : String :=
  "GOOGLE_GENERATIVE_AI_API_KEY is not defined in cli/.env file"

/-- getGeminiModel: throws when the environment lacks the API key, otherwise
returns the model handle. -/
def getGeminiModel (env : Option String) : Except String String :=
  match env with
  | none => Except.error keyMissingMsg
  | some _ => Except.ok "gemini-2.5-pro"

/-- One generateObject invocation inside runNextStep's try block: the model
is built first (so a missing key throws here, inside the try), then the
transport/validation outcome of attempt `n` comes from the oracle. The
conversation passed to the model is `w.messages`, unchanged across retries of
the same step. -/
def attemptCall (env : Option String) (oracle : Nat → Except String AIResponse)
    (n : Nat) : Except String AIResponse :=
  match getGeminiModel env with
  | Except.error e => Except.error e
  | Except.ok _ => oracle n

/-- The synthetic failure Result produced when a Decision has no operation
but still carries a (truthy) command or path. -/
def syntheticFailure : OperationResult :=
  { success := false,
    error := some "You cannot run a command or read a file without a request" }

/-- JS truthiness of a `string | undefined` value: undefined and "" are
falsy. -/
def truthyOpt : Option String → Bool
  | none => false
  | some s => !(s == "")

/-- DatabaseAgent.executeOperation: dispatch one Decision to the Executor,
failing closed (without invoking any tool) when a required payload is
missing. -/
def executeOperation (ex : Exec) (w : World) (r : AIResponse) :
    World × OperationResult :=
  match r.operation with
  | some FileOp.EXECUTE_COMMAND =>
    if truthyOpt r.command = false then
      (w, { success := false,
            error := some "Command is required for runCommand operation" })
    else runCommand ex w (r.command.getD "") (some r.path)
  | some FileOp.READ_FILE => readFile w r.path
  | some FileOp.WRITE_FILE =>
    if truthyOpt r.fileContent = false then
      (w, { success := false,
            error := some "File content is required for writefile operation" })
    else writeFile ex w r.path (r.fileContent.getD "")
  | some FileOp.DELETE_FILE => deleteFile w r.path
  | some FileOp.READ_DIRECTORY => readDirectory w r.path
  | some FileOp.CREATE_DIRECTORY => createDirectory w r.path
  | some FileOp.SCAN_PROJECT => scanProject w r.path
  | none =>
    (w, { success := false, error := some "Unknown operation: null" })

def assistantMsg (r : AIResponse) : Message :=
  { role := "assistant", content := MsgContent.decision r }

def resultMsg (r : OperationResult) : Message :=
  { role := "user", content := MsgContent.result r }

/-- The body of runNextStep's try block after a successful generateObject
call: push the Decision as an assistant message, bump the step counter,
narrate the explanation, dispatch (or synthesize a failure for an
operation-less Decision that still carries a command or truthy path), push
the Result if one was produced, and narrate completion. -/
def applyDecision (ex : Exec) (w : World) (obj : AIResponse) : World :=
  let w1 := w.pushMsg (assistantMsg obj)
  let w2 := { w1 with stepCount := w1.stepCount + 1 }
  let w3 := w2.addConsole obj.explanation
  let step :=
    if obj.operation.isSome then
      let er := executeOperation ex w3 obj
      (er.1, some er.2)
    else if truthyOpt obj.command || !(obj.path == "") then
      (w3, some syntheticFailure)
    else (w3, (none : Option OperationResult))
  let w5 := match step.2 with
    | some r => step.1.pushMsg (resultMsg r)
    | none => step.1
  if obj.success then w5.addConsole "Task Completed Successfully" else w5

structure StepRes where
  isCompleted : Bool
  error : Option String
deriving DecidableEq

def maxRetriesMsg : String := "Maximum retries reached"

/-- DatabaseAgent.runNextStep. A failed model call sleeps 10 s and recurses
with retryCount+1 over the same conversation; retryCount > 3 gives up with
`maxRetriesMsg`. `fuel` is a structural-recursion bookkeeping argument that
equals 4 - retryCount at every reachable call (so the fuel-0 branch below is
unreachable from `runNextStep`); it does not alter the source's semantics. -/
def runNextStepGo (env : Option String) (oracle : Nat → Except String AIResponse)
    (ex : Exec) : Nat → World → Nat → World × StepRes
  | fuel, w, retryCount =>
    if retryCount > 3 then (w, { isCompleted := false, error := some maxRetriesMsg })
    else
      match attemptCall env oracle retryCount with
      | Except.error _ =>
        match fuel with
        | 0 => (w, { isCompleted := false, error := some maxRetriesMsg })
        | fuel' + 1 =>
          runNextStepGo env oracle ex fuel' (w.addSleep 10000) (retryCount + 1)
      | Except.ok obj =>
        (applyDecision ex w obj, { isCompleted := obj.success, error := none })

def runNextStep (env : Option String) (oracle : Nat → Except String AIResponse)
    (ex : Exec) (w : World) (retryCount : Nat) : World × StepRes :=
  runNextStepGo env oracle ex (4 - retryCount) w retryCount

def maxIterationsMsg : String := "Maximum iterations reached"

/-- spawnAgent's while loop. Each iteration calls runNextStep with a fresh
retryCount of 0; a completed result returns at once; otherwise a 4 s pacing
sleep precedes the next iteration; 50 iterations without completion fall out
of the loop and print the max-iterations warning. The oracle is indexed by
the (1-based) iteration then the attempt. As in `runNextStepGo`, `fuel`
equals 50 - iterations at every reachable call, making the fuel-0 branch
unreachable from `spawnAgent`. -/
def spawnLoopGo (env : Option String) (oracle : Nat → Nat → Except String AIResponse)
    (ex : Exec) : Nat → World → Nat → World
  | fuel, w, iterations =>
    if iterations < 50 then
      let res := runNextStep env (oracle (iterations + 1)) ex w 0
      if res.2.isCompleted then res.1
      else
        match fuel with
        | 0 => res.1
        | fuel' + 1 =>
          spawnLoopGo env oracle ex fuel' (res.1.addSleep 4000) (iterations + 1)
    else w.addConsole maxIterationsMsg

/-- The DatabaseAgent constructor: the initial prompt is the first user
message; counters start at zero. -/
def initialWorld (cwd prompt : String) (fs : FS) : World :=
  { cwd := cwd, fs := fs,
    messages := [{ role := "user", content := MsgContent.text prompt }],
    stepCount := 0, sleeps := [], toolLog := [], console := [] }

/-- spawnAgent. Its TypeScript type is Promise<void>: it resolves with no
value on every path (completion and cap alike), so the Unit component is the
caller-visible return value; everything else a caller could observe lives in
the World. -/
def spawnAgent (env : Option String) (oracle : Nat → Nat → Except String AIResponse)
    (ex : Exec) (cwd prompt : String) (fs : FS) : World × Unit :=
  (spawnLoopGo env oracle ex 50 (initialWorld cwd prompt fs) 0, ())

/-! ### Concrete fixtures used by witnesses and counterexamples -/

def exNoop : Exec :=
  { lintResult := fun _ => none, runResult := fun _ _ => Except.ok ("", "") }

def fsEmpty : FS := { files := [], dirs := [] }

/-- A completing Decision (pure completion: no operation, no command). -/
def doneDecision : AIResponse :=
  { success := true, operation := none, path := ".", fileContent := none,
    command := none, explanation := "done" }

/-- A non-completing, operation-less Decision with an empty path. -/
def notDoneDecision : AIResponse :=
  { success := false, operation := none, path := "", fileContent := none,
    command := none, explanation := "thinking" }

/-- A generic world launched from the repository root. -/
def wSample : World :=
  { cwd := "/proj", fs := { files := [], dirs := [["proj"]] },
    messages := [{ role := "user", content := MsgContent.text "task" }],
    stepCount := 0, sleeps := [], toolLog := [], console := [] }

/-- The cli-launch configuration: the process cwd is /proj/cli, so
PROJECT_ROOT is /proj; one file exists at /proj/b.txt. -/
def cliWorld : World :=
  { cwd := "/proj/cli",
    fs := { files := [(["proj", "b.txt"], "hi")], dirs := [["proj"]] },
    messages := [], stepCount := 0, sleeps := [], toolLog := [], console := [] }

/-- The cli-launch configuration with an empty project tree. -/
def cliWriteWorld : World :=
  { cwd := "/proj/cli", fs := { files := [], dirs := [["proj"]] },
    messages := [], stepCount := 0, sleeps := [], toolLog := [], console := [] }

/-- A root-launch world whose project root contains a regular file "a". -/
def fileBlockWorld : World :=
  { cwd := "/proj", fs := { files := [(["proj", "a"], "x")], dirs := [["proj"]] },
    messages := [], stepCount := 0, sleeps := [], toolLog := [], console := [] }

/-- A root-launch world for lint experiments. -/
def rootWorld : World :=
  { cwd := "/proj", fs := { files := [], dirs := [["proj"]] },
    messages := [], stepCount := 0, sleeps := [], toolLog := [], console := [] }

/-- A raw model output with operation null and an explicitly empty path. -/
def emptyPathRaw : RawAIResponse :=
  { success := true, operation := none, path := some "", fileContent := none,
    command := none, explanation := "done" }

/-- A raw pure-completion output that omits path (zod will default it). -/
def completionRaw : RawAIResponse :=
  { success := true, operation := none, path := none, fileContent := none,
    command := none, explanation := "done" }

/-- An Exec whose lint run always fails with a diagnostic. -/
def exLintFail : Exec :=
  { lintResult := fun _ => some "Lint failed: Unexpected any",
    runResult := fun _ _ => Except.ok ("", "") }

/-- A WRITE_FILE Decision with no fileContent payload. -/
def noContentDecision : AIResponse :=
  { success := false, operation := some FileOp.WRITE_FILE, path := "a.ts",
    fileContent := none, command := none, explanation := "write" }

/-- An EXECUTE_COMMAND Decision with no command payload. -/
def noCommandDecision : AIResponse :=
  { success := false, operation := some FileOp.EXECUTE_COMMAND, path := ".",
    fileContent := none, command := none, explanation := "run" }

/-- A root-launch world whose tree holds a plain file next to a node_modules
subtree. -/
def scanWorld : World :=
  { cwd := "/proj",
    fs := { files := [(["proj", "a.txt"], "x"), (["proj", "node_modules", "x.js"], "y")],
            dirs := [["proj"], ["proj", "node_modules"]] },
    messages := [], stepCount := 0, sleeps := [], toolLog := [], console := [] }

/-- The cli-launch configuration where a file exists at the cwd-relative spot
/proj/cli/c.txt but not at the resolved spot /proj/c.txt. -/
def cliGhostWorld : World :=
  { cwd := "/proj/cli",
    fs := { files := [(["proj", "cli", "c.txt"], "ghost")],
            dirs := [["proj"], ["proj", "cli"]] },
    messages := [], stepCount := 0, sleeps := [], toolLog := [], console := [] }

/-! ### Path normalization lemmas -/

/-- Processing a concatenation is processing the second half starting from
the accumulator the first half produced. -/
theorem normAux_append (A B acc : List String) :
    normAux acc (A ++ B) = normAux ((normAux acc A).reverse) B := by
  induction A generalizing acc with
  | nil => simp [normAux]
  | cons s rest ih =>
    by_cases h1 : s = "" ∨ s = "."
    · simp [normAux, h1, ih]
    · by_cases h2 : s = ".."
      · subst h2
        cases acc with
        | nil => simp [normAux, h1, ih]
        | cons a as => simp [normAux, h1, ih]
      · simp [normAux, h1, h2, ih]

/-- On a list without ".." segments, normalization just drops empty and "."
segments (no popping can happen). -/
theorem normAux_no_dotdot (B : List String) (acc : List String)
    (h : ¬ (".." ∈ B)) :
    normAux acc B = acc.reverse ++ B.filter (fun s => !(s == "" || s == ".")) := by
  induction B generalizing acc with
  | nil => simp [normAux]
  | cons s rest ih =>
    have hs : ¬ (s = "..") := fun hc => h (by simp [hc])
    have hrest : ¬ (".." ∈ rest) := fun hc => h (List.mem_cons_of_mem _ hc)
    by_cases h1 : s = "" ∨ s = "."
    · have hb : (!(s == "" || s == ".")) = false := by
        rcases h1 with h1 | h1 <;> simp [h1]
      simp [normAux, h1, List.filter_cons, hb, ih _ hrest]
      rcases h1 with h1 | h1 <;> simp [h1]
    · have hb : (!(s == "" || s == ".")) = true := by
        push_neg at h1
        simp [h1.1, h1.2]
      simp [normAux, h1, hs, List.filter_cons, hb, ih _ hrest]
      push_neg at h1
      simp [h1.1, h1.2]

theorem hasPrefixSegs_append (l t : List String) :
    hasPrefixSegs l (l ++ t) = true := by
  induction l with
  | nil => simp [hasPrefixSegs]
  | cons a as ih => simp [hasPrefixSegs, ih]

/-! ### Claim C1 -/

/-- C1 counterexample: the claim is false as stated. For the relative path
"../../etc/passwd" (which contains ".." segments), resolvePath from the
project root /home/u/proj yields /home/etc/passwd, which is not a descendant
of the project root. -/
theorem resolvePath_escape_counterexample :
    isAbsolute "../../etc/passwd" = false ∧
    resolvePath (PROJECT_ROOT "/home/u/proj") "../../etc/passwd" =
      "/home/etc/passwd" ∧
    isDescendant (rootSegsOf "/home/u/proj")
      (absSegs (PROJECT_ROOT "/home/u/proj") "../../etc/passwd") = false := by
  decide

/-- C1 (amended): an absolute path is returned unchanged by resolvePath, and
a relative path WITHOUT ".." segments always resolves (at the OS level,
`absSegs`) to a descendant of — or equal to — the fixed project root,
regardless of the process cwd; relative paths containing ".." segments can
escape the root. -/
theorem resolvePath_containment (cwd p : String) :
    (isAbsolute p = true → resolvePath (PROJECT_ROOT cwd) p = p) ∧
    (isAbsolute p = false → ¬ (".." ∈ segsOf p) →
      isDescendant (rootSegsOf cwd) (absSegs (PROJECT_ROOT cwd) p) = true) := by
  constructor
  · intro h
    simp [resolvePath, h]
  · intro h hdd
    simp only [absSegs, h, rootSegsOf, isDescendant, Bool.false_eq_true, if_false]
    rw [normAux_append]
    rw [normAux_no_dotdot _ _ hdd]
    rw [List.reverse_reverse]
    exact hasPrefixSegs_append _ _

/-- Witness for the C1 theorem at concrete inputs: an absolute path passes
through unchanged, and a clean relative path stays under the root. -/
theorem resolvePath_containment_witness :
    (isAbsolute "/etc/hosts" = true ∧
      resolvePath (PROJECT_ROOT "/home/u/proj") "/etc/hosts" = "/etc/hosts") ∧
    (isAbsolute "src/app.ts" = false ∧ ¬ (".." ∈ segsOf "src/app.ts") ∧
      isDescendant (rootSegsOf "/home/u/proj")
        (absSegs (PROJECT_ROOT "/home/u/proj") "src/app.ts") = true) :=
  ⟨⟨by decide, (resolvePath_containment "/home/u/proj" "/etc/hosts").1 (by decide)⟩,
   ⟨by decide, by decide,
    (resolvePath_containment "/home/u/proj" "src/app.ts").2 (by decide) (by decide)⟩⟩

/-! ### Claim C2 -/

/-- C2 (code-bug evaluation): with the API key absent from the environment,
the missing-credential error IS routed through the bounded retry path —
contrary to the claim. The step performs 4 attempts with a 10-second backoff
after each (never consulting the model oracle, which here would even return a
completing Decision), gives up with "Maximum retries reached", and the outer
loop then keeps iterating until the 50-iteration cap instead of aborting. -/
theorem missingKey_isRetried :
    runNextStep none (fun _ => Except.ok doneDecision) exNoop wSample 0 =
      ({ wSample with sleeps := [10000, 10000, 10000, 10000] },
       { isCompleted := false, error := some maxRetriesMsg }) ∧
    maxIterationsMsg ∈
      (spawnAgent none (fun _ _ => Except.ok doneDecision) exNoop "/proj"
        "add a table" fsEmpty).1.console := by
  decide

/-! ### Claim C5 -/

/-- C5: a WRITE_FILE Decision whose fileContent is absent, or an
EXECUTE_COMMAND Decision whose command is absent, never reaches the Executor:
dispatch returns a descriptive failure Result and leaves the world (filesystem
and tool-invocation log) completely unchanged. -/
theorem missingPayload_failsClosed (ex : Exec) (w : World) (r : AIResponse) :
    (r.operation = some FileOp.WRITE_FILE → r.fileContent = none →
      executeOperation ex w r =
        (w, { success := false,
              error := some "File content is required for writefile operation" })) ∧
    (r.operation = some FileOp.EXECUTE_COMMAND → r.command = none →
      executeOperation ex w r =
        (w, { success := false,
              error := some "Command is required for runCommand operation" })) := by
  constructor
  · intro hop hfc
    simp [executeOperation, hop, hfc, truthyOpt]
  · intro hop hc
    simp [executeOperation, hop, hc, truthyOpt]

/-- Witness for the C5 theorem at concrete Decisions missing their payload. -/
theorem missingPayload_failsClosed_witness :
    (noContentDecision.operation = some FileOp.WRITE_FILE ∧
     noContentDecision.fileContent = none ∧
     executeOperation exNoop wSample noContentDecision =
       (wSample, { success := false,
                   error := some "File content is required for writefile operation" })) ∧
    (noCommandDecision.operation = some FileOp.EXECUTE_COMMAND ∧
     noCommandDecision.command = none ∧
     executeOperation exNoop wSample noCommandDecision =
       (wSample, { success := false,
                   error := some "Command is required for runCommand operation" })) :=
  ⟨⟨rfl, rfl, (missingPayload_failsClosed exNoop wSample noContentDecision).1 rfl rfl⟩,
   ⟨rfl, rfl, (missingPayload_failsClosed exNoop wSample noCommandDecision).2 rfl rfl⟩⟩

/-! ### Claim C4 -/

/-- C4 (code-bug evaluation): in the cli-launch configuration (process cwd
/proj/cli, PROJECT_ROOT /proj), WriteFile("a.txt","hello") succeeds and the
file on disk at the resolved path contains "hello", yet ReadFile("a.txt")
reports File not found instead of returning the content — the round-trip
fails because readFile's existence check uses the raw (cwd-relative) path.
The lint half of the claim does behave as stated: a lint failure yields
success=false with the diagnostic while the file on disk holds the written
content. -/
theorem writeRead_roundTrip_mismatch :
    ((writeFile exNoop cliWriteWorld "a.txt" "hello").2).success = true ∧
    (writeFile exNoop cliWriteWorld "a.txt" "hello").1.fs.fileContentAt
      (absSegs (PROJECT_ROOT "/proj/cli") "a.txt") = some "hello" ∧
    (readFile (writeFile exNoop cliWriteWorld "a.txt" "hello").1 "a.txt").2 =
      { success := false, path := some "a.txt", error := some "File not found" } ∧
    (writeFile exLintFail rootWorld "x.ts" "let a: any").2 =
      { success := false, path := some "x.ts",
        error := some "Lint failed: Unexpected any" } ∧
    (writeFile exLintFail rootWorld "x.ts" "let a: any").1.fs.fileContentAt
      (absSegs (PROJECT_ROOT "/proj") "x.ts") = some "let a: any" := by
  decide

/-! ### Claim C6 -/

/-- C6 (code-bug evaluation): "File not found" is NOT returned exactly when
the resolved path is missing. In the cli-launch configuration, a file that
exists at the resolved path /proj/b.txt is reported "File not found" (the
check ran on /proj/cli/b.txt), while a path whose resolved target is missing
but whose cwd-relative target exists fails with an ENOENT message instead of
"File not found". Reading modifies no filesystem state in either case. -/
theorem readFile_notFound_mismatch :
    FS.existsAt cliWorld.fs (absSegs (PROJECT_ROOT cliWorld.cwd) "b.txt") = true ∧
    cliWorld.fs.fileContentAt (absSegs (PROJECT_ROOT cliWorld.cwd) "b.txt") =
      some "hi" ∧
    (readFile cliWorld "b.txt").2 =
      { success := false, path := some "b.txt", error := some "File not found" } ∧
    (readFile cliWorld "b.txt").1.fs = cliWorld.fs ∧
    FS.existsAt cliGhostWorld.fs
      (absSegs (PROJECT_ROOT cliGhostWorld.cwd) "c.txt") = false ∧
    (readFile cliGhostWorld "c.txt").2 =
      { success := false, path := some "c.txt",
        error := some "ENOENT: no such file or directory" } ∧
    (readFile cliGhostWorld "c.txt").1.fs = cliGhostWorld.fs := by
  decide

/-! ### Claim C9 -/

theorem addDir_files (fs : FS) (segs : List String) :
    (fs.addDir segs).files = fs.files := by
  unfold FS.addDir
  split <;> rfl

theorem hasFile_of_files_eq {fs gs : FS} (h : gs.files = fs.files)
    (c : List String) : gs.hasFile c = fs.hasFile c := by
  simp [FS.hasFile, h]

theorem addDir_hasDir_self (fs : FS) (segs : List String) :
    (fs.addDir segs).hasDir segs = true := by
  by_cases h : fs.hasDir segs = true
  · simp [FS.addDir, h]
  · simp only [FS.addDir, h, if_false]
    simp [FS.hasDir]

theorem addDir_hasDir_mono {fs : FS} {d : List String} (h : fs.hasDir d = true)
    (c : List String) : (fs.addDir c).hasDir d = true := by
  by_cases hc : fs.hasDir c = true
  · simp [FS.addDir, hc, h]
  · simp only [FS.addDir, hc, if_false]
    simp only [FS.hasDir, List.any_append] at h ⊢
    simp [h]

theorem addDir_of_hasDir {fs : FS} {segs : List String}
    (h : fs.hasDir segs = true) : fs.addDir segs = fs := by
  simp [FS.addDir, h]

/-- A successful recursive mkdir adds no files, only directories, and running
it a second time from the state it produced succeeds without change. -/
theorem mkdirAux_ok (fs fs' : FS) (done l : List String)
    (h : mkdirAux fs done l = Except.ok fs') :
    fs'.files = fs.files ∧ (∀ d, fs.hasDir d = true → fs'.hasDir d = true) ∧
    mkdirAux fs' done l = Except.ok fs' := by
  induction l generalizing fs done with
  | nil =>
    simp only [mkdirAux, Except.ok.injEq] at h
    subst h
    exact ⟨rfl, fun d hd => hd, by simp [mkdirAux]⟩
  | cons s rest ih =>
    by_cases hf : fs.hasFile (done ++ [s]) = true
    · simp [mkdirAux, hf] at h
    · simp only [mkdirAux, hf, Bool.false_eq_true, if_false] at h
      obtain ⟨h1, h2, h3⟩ := ih (fs.addDir (done ++ [s])) (done ++ [s]) h
      have hfiles : fs'.files = fs.files := by rw [h1, addDir_files]
      refine ⟨hfiles, ?_, ?_⟩
      · intro d hd
        exact h2 d (addDir_hasDir_mono hd _)
      · have hcur : fs'.hasDir (done ++ [s]) = true :=
          h2 _ (addDir_hasDir_self fs (done ++ [s]))

        have hf' : fs'.hasFile (done ++ [s]) = false := by
          rw [hasFile_of_files_eq hfiles]
          exact Bool.not_eq_true _ ▸ eq_false_of_ne_true hf
        simp only [mkdirAux, hf', Bool.false_eq_true, if_false,
                   addDir_of_hasDir hcur]
        exact h3

/-- C9 counterexample: the claim is false as stated. When a regular file
occupies the target path, CreateDirectory fails (EEXIST) on the first AND on
the second invocation — the second call does fail. -/
theorem createDirectory_second_call_fails :
    ((createDirectory fileBlockWorld "a").2).success = false ∧
    ((createDirectory (createDirectory fileBlockWorld "a").1 "a").2).success =
      false := by
  decide

/-- C9 (amended): CreateDirectory is idempotent whenever its first invocation
succeeds (in particular when no regular file occupies the path or any of its
ancestors): invoking it again right away returns success=true — so a second
call on an already-existing directory succeeds. -/
theorem createDirectory_idempotent (w : World) (p : String)
    (h : ((createDirectory w p).2).success = true) :
    ((createDirectory (createDirectory w p).1 p).2).success = true := by
  unfold createDirectory at h ⊢
  simp only [World.logTool, mkdirRecursive] at h ⊢
  cases hm : mkdirAux w.fs [] (absSegs (PROJECT_ROOT w.cwd) p) with
  | error e => simp [hm] at h
  | ok fs1 =>
    obtain ⟨_, _, h3⟩ := mkdirAux_ok _ _ _ _ hm
    simp [hm, h3]

/-- Witness for the C9 theorem: creating "notes" from a fresh project root
succeeds, and so does the immediate second call. -/
theorem createDirectory_idempotent_witness :
    ((createDirectory rootWorld "notes").2).success = true ∧
    ((createDirectory (createDirectory rootWorld "notes").1 "notes").2).success =
      true :=
  ⟨by decide, createDirectory_idempotent rootWorld "notes" (by decide)⟩

/-! ### Claim C3 -/

/-- C3 counterexample: the claim is false as stated. With a model call that
always fails with "boom", retry exhaustion surfaces the fixed message
"Maximum retries reached" — not the triggering error's message — and it does
NOT stop the run: the loop proceeds to the next iteration, where (here) the
model completes the task successfully. -/
theorem retryExhaustion_counterexample :
    (runNextStep (some "key") (fun _ => Except.error "boom") exNoop wSample 0).2.error =
      some maxRetriesMsg ∧
    ¬ ((runNextStep (some "key") (fun _ => Except.error "boom") exNoop wSample 0).2.error =
      some "boom") ∧
    "Task Completed Successfully" ∈
      (spawnLoopGo (some "key")
        (fun i _ => if i == 1 then Except.error "boom" else Except.ok doneDecision)
        exNoop 50 wSample 0).console := by
  decide

/-- C3 (amended): a step's model call is attempted at most 4 times, each
re-invocation preceded by a fixed 10-second backoff and using the same
conversation (the world is unchanged apart from the recorded sleeps); a step
that fails transiently three times and succeeds on the fourth attempt
completes normally. Exhausting the ceiling makes only the STEP fail, with the
fixed message "Maximum retries reached" rather than the triggering error's
message, and the iteration loop then continues rather than terminating. -/
theorem retryPolicy (k e : String) (d : AIResponse) (ex : Exec) (w : World) :
    (runNextStep (some k)
        (fun n => if n < 3 then Except.error e else Except.ok d) ex w 0 =
      (applyDecision ex { w with sleeps := w.sleeps ++ [10000, 10000, 10000] } d,
       { isCompleted := d.success, error := none })) ∧
    (runNextStep (some k) (fun _ => Except.error e) ex w 0 =
      ({ w with sleeps := w.sleeps ++ [10000, 10000, 10000, 10000] },
       { isCompleted := false, error := some maxRetriesMsg })) := by
  constructor <;>
    simp [runNextStep, runNextStepGo, attemptCall, getGeminiModel, World.addSleep]

/-! ### Claim C10 -/

/-- C10 counterexample: the claim is false as stated. A Decision with
operation null whose path is explicitly the empty string (which the schema
admits: zod's default fills only an ABSENT path) fails the truthiness check
`object.command || object.path`, so no synthetic failure Result is appended —
the conversation gains only the assistant message. -/
theorem emptyPath_skipsSyntheticFailure :
    (parseResponse emptyPathRaw).operation = none ∧
    (parseResponse emptyPathRaw).command = none ∧
    (runNextStep (some "key") (fun _ => Except.ok (parseResponse emptyPathRaw))
        exNoop wSample 0).1.messages =
      wSample.messages ++ [assistantMsg (parseResponse emptyPathRaw)] := by
  decide

/-- C10 (amended): because the schema fills an absent path with the default
".", every Decision with operation null whose path is not explicitly the
empty string — in particular every pure completion Decision that simply omits
path and command — passes the `command || path` truthiness check, so the Step
Engine appends the synthetic failure Result ("You cannot run a command or
read a file without a request") right after the assistant message on every
such operation-less step. -/
theorem defaultPath_syntheticFailure (k : String) (ex : Exec) (w : World)
    (raw : RawAIResponse) (hop : raw.operation = none)
    (hpath : raw.path ≠ some "") :
    (runNextStep (some k) (fun _ => Except.ok (parseResponse raw)) ex w 0).1.messages =
      w.messages ++ [assistantMsg (parseResponse raw), resultMsg syntheticFailure] := by
  have hcond : truthyOpt raw.command = true ∨ ¬ raw.path.getD "." = "" := by
    cases hp : raw.path with
    | none => exact Or.inr (by simp)
    | some s =>
      have hs : ¬ (s = "") := fun hc => hpath (by rw [hp, hc])
      exact Or.inr (by simp [hs])
  cases hs : raw.success <;>
    simp [runNextStep, runNextStepGo, attemptCall, getGeminiModel, applyDecision,
          hop, hs, parseResponse, World.pushMsg, World.addConsole,
          iff_true_intro hcond]

/-- Witness for the C10 theorem: a pure completion Decision omitting path and
command still receives the synthetic failure Result. -/
theorem defaultPath_syntheticFailure_witness :
    (completionRaw.operation = none ∧ completionRaw.path ≠ some "") ∧
    (runNextStep (some "key") (fun _ => Except.ok (parseResponse completionRaw))
        exNoop wSample 0).1.messages =
      wSample.messages ++
        [assistantMsg (parseResponse completionRaw), resultMsg syntheticFailure] :=
  ⟨⟨rfl, by decide⟩,
   defaultPath_syntheticFailure "key" exNoop wSample completionRaw rfl (by decide)⟩

/-! ### Claim C7 -/

theorem readFile_stepCount (w : World) (p : String) :
    (readFile w p).1.stepCount = w.stepCount := by
  unfold readFile
  dsimp only
  repeat' split
  all_goals rfl

theorem writeFile_stepCount (ex : Exec) (w : World) (p c : String) :
    (writeFile ex w p c).1.stepCount = w.stepCount := by
  unfold writeFile
  dsimp only
  repeat' split
  all_goals rfl

theorem deleteFile_stepCount (w : World) (p : String) :
    (deleteFile w p).1.stepCount = w.stepCount := by
  unfold deleteFile
  dsimp only
  repeat' split
  all_goals rfl

theorem readDirectory_stepCount (w : World) (p : String) :
    (readDirectory w p).1.stepCount = w.stepCount := by
  unfold readDirectory
  dsimp only
  repeat' split
  all_goals rfl

theorem createDirectory_stepCount (w : World) (p : String) :
    (createDirectory w p).1.stepCount = w.stepCount := by
  unfold createDirectory
  dsimp only
  repeat' split
  all_goals rfl

theorem runCommand_stepCount (ex : Exec) (w : World) (c : String)
    (cw : Option String) :
    (runCommand ex w c cw).1.stepCount = w.stepCount := by
  unfold runCommand
  dsimp only
  repeat' split
  all_goals rfl

theorem scanProject_stepCount (w : World) (p : String) :
    (scanProject w p).1.stepCount = w.stepCount := by
  rfl

/-- No Executor primitive touches the step counter. -/
theorem executeOperation_stepCount (ex : Exec) (w : World) (r : AIResponse) :
    (executeOperation ex w r).1.stepCount = w.stepCount := by
  unfold executeOperation
  cases hop : r.operation with
  | none => rfl
  | some op =>
    cases op <;> dsimp only <;>
      first
      | rfl
      | exact readFile_stepCount _ _
      | exact deleteFile_stepCount _ _
      | exact readDirectory_stepCount _ _
      | exact createDirectory_stepCount _ _
      | exact scanProject_stepCount _ _
      | (split
         · rfl
         · first
           | exact runCommand_stepCount _ _ _ _
           | exact writeFile_stepCount _ _ _ _)

theorem pushMsg_stepCount (w : World) (m : Message) :
    (w.pushMsg m).stepCount = w.stepCount := rfl

theorem addConsole_stepCount (w : World) (s : String) :
    (w.addConsole s).stepCount = w.stepCount := rfl

theorem addSleep_stepCount (w : World) (n : Nat) :
    (w.addSleep n).stepCount = w.stepCount := rfl

/-- Each successfully parsed Decision advances the step counter by exactly
one. -/
theorem applyDecision_stepCount (ex : Exec) (w : World) (obj : AIResponse) :
    (applyDecision ex w obj).stepCount = w.stepCount + 1 := by
  unfold applyDecision
  dsimp only
  repeat' split
  all_goals
    simp [executeOperation_stepCount, World.pushMsg, World.addConsole]

/-- One runNextStep call advances the step counter by at most one, no matter
how many retries it takes. -/
theorem runNextStepGo_stepCount (env : Option String)
    (oracle : Nat → Except String AIResponse) (ex : Exec) (fuel : Nat)
    (w : World) (retryCount : Nat) :
    (runNextStepGo env oracle ex fuel w retryCount).1.stepCount ≤ w.stepCount + 1 := by
  induction fuel generalizing w retryCount with
  | zero =>
    rw [runNextStepGo]
    split
    · simp
    · cases h : attemptCall env oracle retryCount with
      | error e => simp [h]
      | ok obj => simp [h, applyDecision_stepCount]
  | succ f ih =>
    rw [runNextStepGo]
    split
    · simp
    · cases h : attemptCall env oracle retryCount with
      | error e =>
        simp only [h]
        exact le_trans (ih _ _) (by simp [World.addSleep])
      | ok obj => simp [h, applyDecision_stepCount]

theorem attemptCall_ok {env : Option String} {oracle : Nat → Except String AIResponse}
    {n : Nat} {r : AIResponse} (h : attemptCall env oracle n = Except.ok r) :
    oracle n = Except.ok r := by
  cases env with
  | none => simp [attemptCall, getGeminiModel] at h
  | some k => simpa [attemptCall, getGeminiModel] using h

/-- If the model never reports success, no step completes. -/
theorem runNextStepGo_not_completed (env : Option String)
    (oracle : Nat → Except String AIResponse) (ex : Exec)
    (hsc : ∀ n r, oracle n = Except.ok r → r.success = false)
    (fuel : Nat) (w : World) (retryCount : Nat) :
    (runNextStepGo env oracle ex fuel w retryCount).2.isCompleted = false := by
  induction fuel generalizing w retryCount with
  | zero =>
    rw [runNextStepGo]
    split
    · rfl
    · cases h : attemptCall env oracle retryCount with
      | error e => simp [h]
      | ok obj => simp [h, hsc _ _ (attemptCall_ok h)]
  | succ f ih =>
    rw [runNextStepGo]
    split
    · rfl
    · cases h : attemptCall env oracle retryCount with
      | error e => simp [h, ih]
      | ok obj => simp [h, hsc _ _ (attemptCall_ok h)]

/-- As long as `iterations + fuel = 50` (the invariant spawnAgent starts
with), the loop adds at most `fuel` more steps. -/
theorem spawnLoopGo_stepCount (env : Option String)
    (oracle : Nat → Nat → Except String AIResponse) (ex : Exec) (fuel : Nat)
    (w : World) (iterations : Nat) (hinv : iterations + fuel = 50) :
    (spawnLoopGo env oracle ex fuel w iterations).stepCount ≤ w.stepCount + fuel := by
  induction fuel generalizing w iterations with
  | zero =>
    have hge : ¬ (iterations < 50) := by omega
    rw [spawnLoopGo]
    simp [hge, World.addConsole]
  | succ f ih =>
    have hit : iterations < 50 := by omega
    have hstep : (runNextStep env (oracle (iterations + 1)) ex w 0).1.stepCount ≤
        w.stepCount + 1 := runNextStepGo_stepCount _ _ _ _ _ _
    rw [spawnLoopGo]
    simp only [hit, if_true]
    by_cases hc :
        (runNextStep env (oracle (iterations + 1)) ex w 0).2.isCompleted = true
    · simp [hc]
      omega
    · simp only [hc, Bool.false_eq_true, if_false]
      have hrec := ih ((runNextStep env (oracle (iterations + 1)) ex w 0).1.addSleep 4000)
        (iterations + 1) (by omega)
      rw [addSleep_stepCount] at hrec
      omega

/-- A run whose model never reports success falls out of the loop and prints
the max-iterations warning. -/
theorem spawnLoopGo_warning (env : Option String)
    (oracle : Nat → Nat → Except String AIResponse) (ex : Exec)
    (hsc : ∀ i n r, oracle i n = Except.ok r → r.success = false)
    (fuel : Nat) (w : World) (iterations : Nat) (hinv : iterations + fuel = 50) :
    maxIterationsMsg ∈ (spawnLoopGo env oracle ex fuel w iterations).console := by
  induction fuel generalizing w iterations with
  | zero =>
    have hge : ¬ (iterations < 50) := by omega
    rw [spawnLoopGo]
    simp [hge, World.addConsole]
  | succ f ih =>
    have hit : iterations < 50 := by omega
    have hnc : (runNextStep env (oracle (iterations + 1)) ex w 0).2.isCompleted = false :=
      runNextStepGo_not_completed _ _ _ (fun n r h => hsc _ n r h) _ _ _
    rw [spawnLoopGo]
    simp only [hit, if_true, hnc, Bool.false_eq_true, if_false]
    exact ih _ _ (by omega)

/-- C7 counterexample: the claim is false as stated. spawnAgent's return type
is Promise<void>: a run that completes on its first step and a run that hits
the 50-iteration cap resolve with the identical (empty) value, so the CALLER
cannot distinguish CappedOut from success — the capped outcome is visible
only in the console narration, which the two runs do differ on. -/
theorem cappedOut_invisibleToCaller :
    (spawnAgent (some "key") (fun _ _ => Except.ok doneDecision) exNoop "/proj" "t"
        fsEmpty).2 =
      (spawnAgent (some "key") (fun _ _ => Except.ok notDoneDecision) exNoop "/proj" "t"
        fsEmpty).2 ∧
    maxIterationsMsg ∈
      (spawnAgent (some "key") (fun _ _ => Except.ok notDoneDecision) exNoop "/proj" "t"
        fsEmpty).1.console ∧
    ¬ (maxIterationsMsg ∈
      (spawnAgent (some "key") (fun _ _ => Except.ok doneDecision) exNoop "/proj" "t"
        fsEmpty).1.console) := by
  decide

/-- C7 (amended): the agent loop performs at most 50 steps per task, and a
run whose model never reports completion ends with the distinct
"Maximum iterations reached" console warning (reported as incomplete, not
erroneous); however spawnAgent resolves with void on every path, so the
distinction is visible in the console narration only, not in the value the
caller receives. -/
theorem iterationCap (env : Option String)
    (oracle : Nat → Nat → Except String AIResponse) (ex : Exec)
    (cwd prompt : String) (fs : FS) :
    (spawnAgent env oracle ex cwd prompt fs).1.stepCount ≤ 50 ∧
    ((∀ i n r, oracle i n = Except.ok r → r.success = false) →
      maxIterationsMsg ∈ (spawnAgent env oracle ex cwd prompt fs).1.console) := by
  constructor
  · have hb := spawnLoopGo_stepCount env oracle ex 50 (initialWorld cwd prompt fs) 0
      (by omega)
    simpa [spawnAgent, initialWorld] using hb
  · intro hsc
    exact spawnLoopGo_warning env oracle ex hsc 50 (initialWorld cwd prompt fs) 0
      (by omega)

/-- Witness for the C7 theorem: a permanently failing model exercises both
conclusions (the step bound and the cap warning). -/
theorem iterationCap_witness :
    (spawnAgent (some "key") (fun _ _ => Except.error "down") exNoop "/proj" "t"
        fsEmpty).1.stepCount ≤ 50 ∧
    maxIterationsMsg ∈
      (spawnAgent (some "key") (fun _ _ => Except.error "down") exNoop "/proj" "t"
        fsEmpty).1.console :=
  ⟨(iterationCap (some "key") (fun _ _ => Except.error "down") exNoop "/proj" "t"
      fsEmpty).1,
   (iterationCap (some "key") (fun _ _ => Except.error "down") exNoop "/proj" "t"
      fsEmpty).2 (fun i n r h => by simp at h)⟩

/-! ### Claim C8 -/

theorem nil_mem_suffixesOf {α : Type} (s : List α) :
    ([] : List α) ∈ suffixesOf s := by
  induction s with
  | nil => simp [suffixesOf]
  | cons a as ih =>
    simp only [suffixesOf, List.mem_cons]
    exact Or.inr ih

theorem mem_suffixesOf {α : Type} (t s : List α) (h : t <:+ s) :
    t ∈ suffixesOf s := by
  induction s with
  | nil =>
    simp at h
    simp [suffixesOf, h]
  | cons a as ih =>
    rcases List.suffix_cons_iff.mp h with h1 | h1
    · simp [suffixesOf, h1]
    · simp [suffixesOf]
      exact Or.inr (ih h1)

theorem segMatch_star_all (cs : List Char) : segMatch ['*'] cs = true := by
  simp only [segMatch]
  refine List.any_eq_true.mpr ⟨[], nil_mem_suffixesOf cs, ?_⟩
  simp [segMatch]

theorem globMatch_doubleStar_of_suffix (ps : List String) (t s : List String)
    (hsuf : t <:+ s) (h : globMatch ps t = true) :
    globMatch ("**" :: ps) s = true := by
  simp only [globMatch]
  rw [if_pos (by rfl)]
  exact List.any_eq_true.mpr ⟨t, mem_suffixesOf t s hsuf, h⟩

theorem globMatch_singleStar (x : String) : globMatch ["*"] [x] = true := by
  have h1 : ("*" == "**") = false := by decide
  have h2 : "*".toList = ['*'] := rfl
  simp [globMatch, h1, h2, segMatch_star_all]

theorem globMatch_doubleStar_star (s : List String) (hne : s ≠ []) :
    globMatch ["**", "*"] s = true := by
  rcases List.eq_nil_or_concat s with h | ⟨t, x, rfl⟩
  · exact absurd h hne
  · rw [List.concat_eq_append]
    exact globMatch_doubleStar_of_suffix ["*"] [x] (t ++ [x]) ⟨t, rfl⟩
      (globMatch_singleStar x)

theorem globMatch_ignorePattern (pstar d : String)
    (hne : (pstar == "**") = false)
    (hm : segMatch pstar.toList d.toList = true) (pre post : List String)
    (hpost : post ≠ []) :
    globMatch ["**", pstar, "**", "*"] (pre ++ d :: post) = true := by
  apply globMatch_doubleStar_of_suffix _ (d :: post) _ ⟨pre, rfl⟩
  rw [globMatch, if_neg (by simp [hne])]
  show (segMatch pstar.toList d.toList && globMatch ["**", "*"] post) = true
  rw [hm, globMatch_doubleStar_star post hpost]
  rfl

theorem dropLast_contains_decomp (l : List String) (d : String)
    (h : l.dropLast.contains d = true) :
    ∃ pre post, l = pre ++ d :: post ∧ post ≠ [] := by
  have hmem : d ∈ l.dropLast := by
    simpa [List.contains] using h
  obtain ⟨s, t, hst⟩ := List.append_of_mem hmem
  have hlne : l ≠ [] := by
    intro hl
    rw [hl] at hmem
    simp at hmem
  refine ⟨s, t ++ [l.getLast hlne], ?_, by simp⟩
  conv_lhs => rw [← List.dropLast_append_getLast hlne]
  rw [hst]
  simp

theorem ignoredPath_of_under (segs : List String) (pat pstar d : String)
    (hpat : pat ∈ ignoreGlobs) (hsplit : segsOf pat = ["**", pstar, "**", "*"])
    (hne : (pstar == "**") = false)
    (hm : segMatch pstar.toList d.toList = true)
    (h : segs.dropLast.contains d = true) :
    ignoredPath segs = true := by
  obtain ⟨pre, post, rfl, hpost⟩ := dropLast_contains_decomp segs d h
  unfold ignoredPath
  refine List.any_eq_true.mpr ⟨pat, hpat, ?_⟩
  rw [hsplit]
  exact globMatch_ignorePattern pstar d hne hm pre post hpost

theorem splitSegsAux_no_slash (l : List Char) (cur : List Char)
    (h : ¬ '/' ∈ l) : splitSegsAux cur l = [cur.reverse ++ l] := by
  induction l generalizing cur with
  | nil => simp [splitSegsAux]
  | cons c cs ih =>
    have hc : ¬ ((c == '/') = true) := by
      simp only [beq_iff_eq]
      intro hc
      exact h (by simp [hc])
    have hcs : ¬ '/' ∈ cs := fun hm => h (List.mem_cons_of_mem _ hm)
    rw [splitSegsAux, if_neg hc, ih _ hcs]
    simp

theorem splitSegsAux_slash (l rest : List Char) (cur : List Char)
    (h : ¬ '/' ∈ l) :
    splitSegsAux cur (l ++ '/' :: rest) =
      (cur.reverse ++ l) :: splitSegsAux [] rest := by
  induction l generalizing cur with
  | nil => simp [splitSegsAux]
  | cons c cs ih =>
    have hc : ¬ ((c == '/') = true) := by
      simp only [beq_iff_eq]
      intro hc
      exact h (by simp [hc])
    have hcs : ¬ '/' ∈ cs := fun hm => h (List.mem_cons_of_mem _ hm)
    rw [List.cons_append, splitSegsAux, if_neg hc, ih _ hcs]
    simp

theorem not_slash_mem_of_cleanSeg {s : String} (h : cleanSeg s = true) :
    ¬ '/' ∈ s.toList := by
  simp only [cleanSeg, Bool.not_eq_true'] at h
  simpa [List.contains] using h

/-- Joining '/'-free segments and splitting again is the identity: segsOf is
a left inverse of joinSegs on well-formed, nonempty segment lists. -/
theorem segsOf_joinSegs (segs : List String) (hne : segs ≠ [])
    (hclean : cleanSegs segs = true) : segsOf (joinSegs segs) = segs := by
  induction segs with
  | nil => cases hne rfl
  | cons s rest ih =>
    have hall := List.all_eq_true.mp hclean
    have hs : ¬ '/' ∈ s.toList :=
      not_slash_mem_of_cleanSeg (hall s (List.mem_cons_self s rest))
    cases rest with
    | nil =>
      show segsOf s = [s]
      unfold segsOf
      rw [splitSegsAux_no_slash _ _ hs]
      simp [String.toList]
    | cons r rs =>
      have hrest : cleanSegs (r :: rs) = true := by
        simp only [cleanSegs, List.all_eq_true]
        intro a ha
        exact hall a (List.mem_cons_of_mem _ ha)
      have hj : (joinSegs (s :: r :: rs)).toList =
          s.toList ++ '/' :: (joinSegs (r :: rs)).toList := by
        show (s ++ "/" ++ joinSegs (r :: rs)).toList =
          s.toList ++ '/' :: (joinSegs (r :: rs)).toList
        simp [String.toList]
      unfold segsOf
      rw [hj, splitSegsAux_slash _ _ _ hs]
      have htail := ih (by simp) hrest
      unfold segsOf at htail
      simp only [List.map_cons, htail]
      simp [String.toList]

/-- Every entry kept by scanMatches is a nonempty list of '/'-free segments,
provided the tree is well-formed. -/
theorem scanMatches_clean (fs : FS) (root : List String) (pattern : String)
    (hwf : fs.wellFormed = true) (x : List String × Bool)
    (hx : x ∈ scanMatches fs root pattern) :
    x.1 ≠ [] ∧ cleanSegs x.1 = true := by
  have hx' : x ∈ relEntries fs root := (List.mem_filter.mp hx).1
  simp only [FS.wellFormed] at hwf
  simp only [Bool.and_eq_true] at hwf
  unfold relEntries at hx'
  rcases List.mem_append.mp hx' with hmem | hmem
  · obtain ⟨d, hd, hsome⟩ := List.mem_filterMap.mp hmem
    by_cases hc : (hasPrefixSegs root d && decide (root.length < d.length)) = true
    · rw [if_pos hc] at hsome
      have hx2 := Option.some.inj hsome
      subst hx2
      simp only [Bool.and_eq_true, decide_eq_true_eq] at hc
      constructor
      · intro hnil
        have := List.drop_eq_nil_iff.mp hnil
        omega
      · have hdc : cleanSegs d = true := List.all_eq_true.mp hwf.1 d hd
        simp only [cleanSegs, List.all_eq_true] at hdc ⊢
        intro a ha
        exact hdc a (List.mem_of_mem_drop ha)
    · rw [if_neg hc] at hsome
      cases hsome
  · obtain ⟨f, hf, hsome⟩ := List.mem_filterMap.mp hmem
    by_cases hc : (hasPrefixSegs root f.1 && decide (root.length < f.1.length)) = true
    · rw [if_pos hc] at hsome
      have hx2 := Option.some.inj hsome
      subst hx2
      simp only [Bool.and_eq_true, decide_eq_true_eq] at hc
      constructor
      · intro hnil
        have := List.drop_eq_nil_iff.mp hnil
        omega
      · have hdc : cleanSegs f.1 = true :=
          List.all_eq_true.mp hwf.2 f hf
        simp only [cleanSegs, List.all_eq_true] at hdc ⊢
        intro a ha
        exact hdc a (List.mem_of_mem_drop ha)
    · rw [if_neg hc] at hsome
      cases hsome

/-- C8: for every glob pattern and every entry in ScanProject's returned
list (over a well-formed tree), the canonical segmentation of the entry's
path has no node_modules, .git or .next among its non-final segments: no
returned path lies strictly under a dependency-manager, version-control or
build-cache directory, whatever the supplied pattern matches. -/
theorem scanProject_excludes (w : World) (pattern : String) (e : String × String)
    (hwf : w.fs.wellFormed = true)
    (he : e ∈ ((scanProject w pattern).2.directoryList.getD [])) :
    (segsOf e.1).dropLast.contains "node_modules" = false ∧
    (segsOf e.1).dropLast.contains ".git" = false ∧
    (segsOf e.1).dropLast.contains ".next" = false := by
  simp only [scanProject, Option.getD] at he
  obtain ⟨x, hx, rfl⟩ := List.mem_map.mp he
  obtain ⟨hne, hclean⟩ := scanMatches_clean _ _ pattern hwf x hx
  have hseg : segsOf (joinSegs x.1) = x.1 := segsOf_joinSegs x.1 hne hclean
  have hfil := (List.mem_filter.mp hx).2
  simp at hfil
  have hig : ignoredPath x.1 = false := hfil.2
  show (segsOf (joinSegs x.1)).dropLast.contains "node_modules" = false ∧
    (segsOf (joinSegs x.1)).dropLast.contains ".git" = false ∧
    (segsOf (joinSegs x.1)).dropLast.contains ".next" = false
  rw [hseg]
  refine ⟨?_, ?_, ?_⟩
  · by_contra hc
    rw [Bool.not_eq_false] at hc
    rw [ignoredPath_of_under x.1 "**/*node_modules/**/*" "*node_modules"
      "node_modules" (by decide) (by decide) (by decide) (by decide) hc] at hig
    exact Bool.true_eq_false.mp hig
  · by_contra hc
    rw [Bool.not_eq_false] at hc
    rw [ignoredPath_of_under x.1 "**/*.git/**/*" "*.git" ".git"
      (by decide) (by decide) (by decide) (by decide) hc] at hig
    exact Bool.true_eq_false.mp hig
  · by_contra hc
    rw [Bool.not_eq_false] at hc
    rw [ignoredPath_of_under x.1 "**/*.next/**/*" "*.next" ".next"
      (by decide) (by decide) (by decide) (by decide) hc] at hig
    exact Bool.true_eq_false.mp hig

/-- Witness for the C8 theorem: scanning a well-formed tree containing
node_modules/x.js with the catch-all pattern returns a.txt, and its canonical
segmentation has no excluded directory among its non-final segments. -/
theorem scanProject_excludes_witness :
    (scanWorld.fs.wellFormed = true ∧
     ("a.txt", "file") ∈ ((scanProject scanWorld "**/*").2.directoryList.getD [])) ∧
    ((segsOf ("a.txt", "file").1).dropLast.contains "node_modules" = false ∧
     (segsOf ("a.txt", "file").1).dropLast.contains ".git" = false ∧
     (segsOf ("a.txt", "file").1).dropLast.contains ".next" = false) :=
  ⟨⟨by decide, by decide⟩,
   scanProject_excludes scanWorld "**/*" ("a.txt", "file") (by decide) (by decide)⟩

end Orchids
